import Mathlib

/-!
Verification development for the telemetry dashboard core
(`telemetry/views.py`): multi-source aggregation of device samples,
trip segmentation, haversine distance, endpoint input validation and
the local ingest cache.

Modelling conventions:
* timestamps are integers (UTC epoch seconds); a parsed-but-possibly-
  invalid raw timestamp field is `Option (Option Int)` — the outer
  layer is "key present and non-null", the inner layer is the result
  of `_parse_ts_any`;
* raw numeric fields that go through `_to_float` / `float(...)` are
  modelled the same way with `Option (Option Rat)`;
* floats are modelled as exact rationals (reals for the trigonometric
  distance function); device ids and labels are strings.
-/

namespace Telemetry

/-! ### String helpers

Python's `str.strip()`, `"-"`-splitting and digit parsing, implemented
over the character list of the string so that concrete instances
reduce inside the kernel. -/

/-- Python `str.strip()` (whitespace as recognized by `Char.isWhitespace`). -/
def pyStrip (s : String) : String :=
  String.mk
    (((s.data.dropWhile fun c => c.isWhitespace).reverse.dropWhile
        fun c => c.isWhitespace).reverse)

def splitDashAux : List Char → List Char → List (List Char)
  | [], acc => [acc.reverse]
  | c :: rest, acc =>
    if c = '-' then acc.reverse :: splitDashAux rest []
    else splitDashAux rest (c :: acc)

/-- Python `s.split("-")` on the literal separator. -/
def splitDash (s : String) : List String :=
  (splitDashAux s.data []).map String.mk

def digitsToNat : List Char → Nat → Nat
  | [], n => n
  | c :: rest, n => digitsToNat rest (n * 10 + (c.toNat - 48))

/-- Decimal value of a non-empty all-digit string, else `none`. -/
def pyToNat? (s : String) : Option Nat :=
  if s.data ≠ [] ∧ s.data.all Char.isDigit then some (digitsToNat s.data 0)
  else none

/-- Epoch seconds of 2010-01-01T00:00:00Z: `_sanitize_ts` rejects any
parsed timestamp whose year is before 2010. -/
def minTs : Int := 1262304000

/-- Source `_sanitize_ts`: return the timestamp if plausible, else `none`. -/
def sanitize_ts (t : Int) : Option Int :=
  if t < minTs then none else some t

/-- Source `_pick(data, *keys)`: first key that is present with a non-null
value; each argument is `none` when the key is absent or null. -/
def pickO {α : Type} : List (Option α) → Option α
  | [] => none
  | some a :: _ => some a
  | none :: rest => pickO rest

/-- A raw field that `_parse_ts_any` is applied to: outer `Option` is
presence, inner is the parse result. -/
abbrev RawTs := Option (Option Int)

/-- A raw field that `_to_float` is applied to: outer `Option` is
presence, inner is the conversion result. -/
abbrev RawNum := Option (Option Rat)

/-- The nested `gps` sub-object of an upstream row. -/
structure GpsBlk where
  lat : RawNum
  latitude : RawNum
  lon : RawNum
  longitude : RawNum
  deriving Repr, DecidableEq

/-- The nested `data` sub-object of an upstream row (vitals). -/
structure DataBlk where
  hr : Option Rat
  spo2 : Option Rat
  temp : Option Rat
  bp_sys : Option Rat
  bp_dia : Option Rat
  deriving Repr, DecidableEq

/-- One raw upstream JSON row as consumed by `merge_rows` inside
`api_current_recent`; every field is optional because upstream shapes
vary. Device ids and labels are modelled as strings. -/
structure Row where
  last_seen : RawTs
  lastSeen : RawTs
  ts_iso : RawTs
  timestamp : RawTs
  ts : RawTs
  lat : RawNum
  last_lat : RawNum
  latitude : RawNum
  lon : RawNum
  last_lon : RawNum
  longitude : RawNum
  gps : Option GpsBlk
  device_id : Option String
  deviceId : Option String
  node_id : Option String
  id : Option String
  label : Option String
  person : Option String
  hr : Option Rat
  spo2 : Option Rat
  temp_c : Option Rat
  temp : Option Rat
  bp_sys : Option Rat
  bp_dia : Option Rat
  data : Option DataBlk
  deriving Repr, DecidableEq

/-- One entry of the local ingest cache `_RECENT_CACHE` (as written by
`ingest_vitals`): timestamp is always a datetime, id and label are
strings, vitals and coordinates may be absent. -/
structure CacheEntry where
  device_id : String
  label : String
  lat : Option Rat
  lon : Option Rat
  hr : Option Rat
  spo2 : Option Rat
  temp_c : Option Rat
  bp_sys : Option Rat
  bp_dia : Option Rat
  ts : Int
  deriving Repr, DecidableEq

/-- One normalized item appended to the unified `items` list of
`api_current_recent`.  The `ts` field holds the sanitized timestamp
(the source serializes it with `isoformat()` and re-parses it in the
fold step; that round trip is the identity on instants). -/
structure Item where
  device_id : Option String
  person_id : Option String
  person : Option String
  label : Option String
  lat : Rat
  lon : Rat
  hr : Option Rat
  spo2 : Option Rat
  temp : Option Rat
  bp_sys : Option Rat
  bp_dia : Option Rat
  ts : Int
  deriving Repr, DecidableEq

/-- The `merge_rows` body for a single row: timestamp picked by
priority `last_seen, lastSeen, ts_iso, timestamp, ts`, then sanitized;
coordinates from `lat/last_lat/latitude` (resp. lon) with a `gps`
fallback; returns `none` when the row is dropped. -/
def mergeRow (r : Row) : Option Item :=
  let tsRaw := pickO [r.last_seen, r.lastSeen, r.ts_iso, r.timestamp, r.ts]
  match (match tsRaw with
         | some (some t) => sanitize_ts t
         | _ => none) with
  | none => none
  | some ts =>
    let lat0 := match pickO [r.lat, r.last_lat, r.latitude] with
                | some v => v
                | none => none
    let lon0 := match pickO [r.lon, r.last_lon, r.longitude] with
                | some v => v
                | none => none
    let lat := match lat0 with
               | some v => some v
               | none =>
                 match r.gps with
                 | some g => (match pickO [g.lat, g.latitude] with
                              | some v => v
                              | none => none)
                 | none => none
    let lon := match lon0 with
               | some v => some v
               | none =>
                 match r.gps with
                 | some g => (match pickO [g.lon, g.longitude] with
                              | some v => v
                              | none => none)
                 | none => none
    match lat, lon with
    | some la, some lo =>
      let dev_id := pickO [r.device_id, r.deviceId, r.node_id, r.id]
      let label := match pickO [r.label, r.person] with
                   | some s => some s
                   | none => dev_id
      let blkHr := r.data.bind (·.hr)
      let blkSpo2 := r.data.bind (·.spo2)
      let blkTemp := r.data.bind (·.temp)
      let blkSys := r.data.bind (·.bp_sys)
      let blkDia := r.data.bind (·.bp_dia)
      some
        { device_id := dev_id
          person_id := dev_id
          person := label
          label := label
          lat := la
          lon := lo
          hr := match r.hr with | some v => some v | none => blkHr
          spo2 := match r.spo2 with | some v => some v | none => blkSpo2
          temp := match pickO [r.temp_c, r.temp] with
                  | some v => some v
                  | none => blkTemp
          bp_sys := match r.bp_sys with | some v => some v | none => blkSys
          bp_dia := match r.bp_dia with | some v => some v | none => blkDia
          ts := ts }
    | _, _ => none

/-- Source `merge_rows` over a list of rows (the items it appends, in order). -/
def mergeRowsList (rows : List Row) : List Item :=
  rows.filterMap mergeRow

/-- Section A of `api_current_recent`: normalize one local-cache entry
(the cached timestamp is a datetime, so it is sanitized directly). -/
def itemFromCache (e : CacheEntry) : Option Item :=
  match sanitize_ts e.ts with
  | none => none
  | some tsu =>
    match e.lat, e.lon with
    | some la, some lo =>
      let label := if e.label = "" then e.device_id else e.label
      some
        { device_id := some e.device_id
          person_id := some e.device_id
          person := some label
          label := some label
          lat := la
          lon := lo
          hr := e.hr
          spo2 := e.spo2
          temp := e.temp_c
          bp_sys := e.bp_sys
          bp_dia := e.bp_dia
          ts := tsu }
    | _, _ => none

def itemsFromCache (cache : List CacheEntry) : List Item :=
  cache.filterMap itemFromCache

/-! ### Section E of `api_current_recent`: de-duplication fold

Python dicts are modelled as association lists with in-place update
(replace the existing binding, else append). -/

def lookupA {α : Type} : List (String × α) → String → Option α
  | [], _ => none
  | (k, v) :: t, k2 => if k = k2 then some v else lookupA t k2

def updateA {α : Type} : List (String × α) → String → α → List (String × α)
  | [], k, v => [(k, v)]
  | (k2, v2) :: t, k, v =>
    if k2 = k then (k, v) :: t else (k2, v2) :: updateA t k v

/-- Source `str(it.get("device_id") or "").strip()` — a missing or empty id
normalizes to the empty string. -/
def devKey (it : Item) : String := pyStrip (it.device_id.getD "")

/-- Source `(it.get("label") or dev_id).strip()` — `or` treats a missing or
empty label as falsy. -/
def foldLabel (it : Item) (devId : String) : String :=
  pyStrip
    (match it.label with
     | some s => if s = "" then devId else s
     | none => devId)

/-- The in-place mutation `it["device_id"] = dev_id; it["label"] = label`
performed by the fold before storing the item. -/
def normItem (it : Item) : Item :=
  { it with device_id := some (devKey it), label := some (foldLabel it (devKey it)) }

/-- One step of the `latest_by_id` fold: skip empty ids; insert when the
device is new; overwrite only when the new timestamp is strictly
greater (the stored item's `ts` always re-parses, being an
`isoformat()` round trip). -/
def foldItem (tbl : List (String × Item)) (it : Item) : List (String × Item) :=
  let devId := devKey it
  if devId = "" then tbl
  else
    match lookupA tbl devId with
    | none => updateA tbl devId (normItem it)
    | some prev =>
      if prev.ts < it.ts then updateA tbl devId (normItem it) else tbl

def foldItems (items : List Item) : List (String × Item) :=
  items.foldl foldItem []

/-- Source `api_current_recent`, with the HTTP fetches abstracted to their
results: `registry`/`lora`/`gsm` are `none` when the source is
unconfigured or its fetch failed, `some rows` when it returned a JSON
body shaping to `rows`.  The LoRa bulk fallback runs only when the
registry produced no rows; the staleness cutoff is computed but — as in
the source — never applied to any record. -/
def api_current_recent (now maxAgeMin : Int) (cache : List CacheEntry)
    (registry lora gsm : Option (List Row)) : List Item :=
  let _cutoff := now - maxAgeMin * 60
  let cacheItems := itemsFromCache cache
  let registry_ok : Bool := match registry with
    | some rows => !rows.isEmpty
    | none => false
  let registryItems := match registry with
    | some rows => if rows.isEmpty then [] else mergeRowsList rows
    | none => []
  let loraItems := if registry_ok then []
    else match lora with
      | some rows => mergeRowsList rows
      | none => []
  let gsmItems := match gsm with
    | some rows => mergeRowsList rows
    | none => []
  let items := cacheItems ++ registryItems ++ loraItems ++ gsmItems
  (foldItems items).map (·.2)

/-! ### Local ingest endpoint (`ingest_vitals`) -/

/-- The decoded POST body: string fields are `none` when absent or
null; numeric fields carry presence and the result of the `float(...)`
or `int(...)` conversion (`some none` = present but unconvertible). -/
structure IngestPayload where
  device_id : Option String
  node_id : Option String
  id : Option String
  label : Option String
  person : Option String
  timestamp : RawTs
  lat : RawNum
  lon : RawNum
  hr : Option (Option Int)
  spo2 : Option (Option Int)
  temp_c : RawNum
  temp : RawNum
  bp_sys : Option (Option Int)
  bp_dia : Option (Option Int)
  deriving Repr, DecidableEq

inductive IngestResp where
  | unauthorized
  | invalidJson
  | deviceRequired
  | ok
  deriving Repr, DecidableEq

/-- Python `a or b or ... or d` over strings: first truthy
(present and non-empty) value, else the default. -/
def pyOrStrD : List (Option String) → String → String
  | [], d => d
  | some s :: rest, d => if s = "" then pyOrStrD rest d else s
  | none :: rest, d => pyOrStrD rest d

/-- Source `_fi(k)`: `float(payload.get(k))`, `None` on any failure. -/
def fiR (f : RawNum) : Option Rat :=
  match f with
  | some (some v) => some v
  | _ => none

/-- Source `_ii(k)`: `int(payload.get(k))`, `None` on any failure. -/
def iiZ (f : Option (Option Int)) : Option Int :=
  match f with
  | some (some v) => some v
  | _ => none

/-- The cache entry `ingest_vitals` builds for a valid request
(integral vitals are embedded into the rationals). -/
def mkIngestEntry (now : Int) (p : IngestPayload) (device_id : String) : CacheEntry :=
  { device_id := device_id
    label := pyOrStrD [p.label, p.person] device_id
    lat := fiR p.lat
    lon := fiR p.lon
    hr := (iiZ p.hr).map (fun z => (z : Rat))
    spo2 := (iiZ p.spo2).map (fun z => (z : Rat))
    temp_c := match p.temp_c with
              | some _ => fiR p.temp_c
              | none => fiR p.temp
    bp_sys := (iiZ p.bp_sys).map (fun z => (z : Rat))
    bp_dia := (iiZ p.bp_dia).map (fun z => (z : Rat))
    ts := match p.timestamp with
          | some (some t) => t
          | _ => now }

/-- Source `ingest_vitals`: secret check, JSON parse, device-id check, then a
single last-write-wins store into the cache.  `body = none` models an
unparseable JSON body. -/
def ingest_vitals (ingestSecret : String) (now : Int)
    (cache : List (String × CacheEntry))
    (reqSecret : String) (body : Option IngestPayload) :
    List (String × CacheEntry) × IngestResp :=
  if reqSecret ≠ ingestSecret then (cache, .unauthorized)
  else
    match body with
    | none => (cache, .invalidJson)
    | some p =>
      let device_id := pyStrip (pyOrStrD [p.device_id, p.node_id, p.id] "")
      if device_id = "" then (cache, .deviceRequired)
      else (updateA cache device_id (mkIngestEntry now p device_id), .ok)

/-! ### Trip grouping and building (`api_tracking`, lines 1164-1222) -/

/-- A filtered, normalized tracking point (`{"dt": ts, "lat": .., "lon": ..}`);
`dt` in epoch seconds. -/
structure Pt where
  dt : Int
  lat : Rat
  lon : Rat
  deriving Repr, DecidableEq

/-- Source `gap_min = (p["dt"] - last_time).total_seconds() / 60.0`. -/
def gapMin (prev cur : Pt) : Rat := ((cur.dt - prev.dt : Int) : Rat) / 60

/-- The grouping loop with a non-empty current run and the previous
point's instant in hand: a gap strictly above the threshold closes the
run. -/
def groupRec (maxGap : Rat) (cur : List Pt) (lastT : Int) : List Pt → List (List Pt)
  | [] => [cur]
  | p :: rest =>
    if maxGap < ((p.dt - lastT : Int) : Rat) / 60 then
      cur :: groupRec maxGap [p] p.dt rest
    else
      groupRec maxGap (cur ++ [p]) p.dt rest

/-- Source `trips_raw`: time-gap grouping of the sorted points (the trailing
run is appended after the loop; an empty input yields no runs). -/
def groupPoints (maxGap : Rat) : List Pt → List (List Pt)
  | [] => []
  | p :: rest => groupRec maxGap [p] p.dt rest

/-- Constant `MAX_GAP_MIN = 20` in `api_tracking`. -/
def apiMaxGapMin : Rat := 20

/-- One serialized point of a trip payload; the `%H:%M:%S` formatting
of the instant is presentation only, so the instant itself is kept. -/
structure TripPt where
  lat : Rat
  lng : Rat
  ts : Int
  deriving Repr, DecidableEq

/-- One trip of the response payload.  `K` is the numeric type of the
distance computation (`ℝ` for the haversine instantiation; claims
quantify over it so that concrete witnesses can use `ℚ`). -/
structure TripSeg (K : Type) where
  id : Nat
  start_time : Int
  end_time : Int
  distance_km : K
  points : List TripPt

/-- Python `round(x, 2)` (Python rounds ties to even, `round` in Mathlib
rounds ties up; no claim depends on exact-tie behavior). -/
def round2 {K : Type} [LinearOrderedField K] [FloorRing K] (x : K) : K :=
  ((round (x * 100) : Int) : K) / 100

/-- Sum of the distances between consecutive points of a run
(the source accumulates left-to-right; addition order is immaterial in
an exact field). -/
def segDist {K : Type} [LinearOrderedField K]
    (d : Rat → Rat → Rat → Rat → K) : List Pt → K
  | p :: q :: rest => d p.lat p.lon q.lat q.lon + segDist d (q :: rest)
  | _ => 0

/-- The payload loop of `api_tracking`: runs with fewer than 2 points
are skipped entirely (no id, no distance contribution); kept runs get
sequential ids and contribute their distance to the running total.
The `getD 0` defaults are unreachable (kept runs have ≥ 2 points). -/
def buildTripsAux {K : Type} [LinearOrderedField K] [FloorRing K]
    (d : Rat → Rat → Rat → Rat → K) (tid : Nat) (total : K) :
    List (List Pt) → List (TripSeg K) × K
  | [] => ([], total)
  | seg :: rest =>
    if seg.length < 2 then buildTripsAux d tid total rest
    else
      let dist := segDist d seg
      let out : TripSeg K :=
        { id := tid
          start_time := ((seg.head?).map Pt.dt).getD 0
          end_time := ((seg.getLast?).map Pt.dt).getD 0
          distance_km := round2 dist
          points := seg.map (fun p => { lat := p.lat, lng := p.lon, ts := p.dt }) }
      let res := buildTripsAux d (tid + 1) (total + dist) rest
      (out :: res.1, res.2)

/-- Trips payload and rounded total distance (`trip_id` starts at 1,
`total_km` at 0). -/
def buildTrips {K : Type} [LinearOrderedField K] [FloorRing K]
    (d : Rat → Rat → Rat → Rat → K) (runs : List (List Pt)) :
    List (TripSeg K) × K :=
  let r := buildTripsAux d 1 0 runs
  (r.1, round2 r.2)

/-- The grouping and building stages of `api_tracking` composed, for an
arbitrary distance function. -/
def apiTripsWith {K : Type} [LinearOrderedField K] [FloorRing K]
    (d : Rat → Rat → Rat → Rat → K) (maxGap : Rat) (ps : List Pt) :
    List (TripSeg K) × K :=
  buildTrips d (groupPoints maxGap ps)

/-! ### `_haversine_km` over the reals -/

/-- Python `math.radians`. -/
noncomputable def radiansR (x : ℝ) : ℝ := x * Real.pi / 180

/-- Python `math.atan2 y x` for real arguments (signed-zero distinctions of the
float original collapse). -/
noncomputable def atan2 (y x : ℝ) : ℝ :=
  if 0 < x then Real.arctan (y / x)
  else if x < 0 then
    (if 0 ≤ y then Real.arctan (y / x) + Real.pi
     else Real.arctan (y / x) - Real.pi)
  else if 0 < y then Real.pi / 2
  else if y < 0 then -(Real.pi / 2)
  else 0

/-- The intermediate `a` of `_haversine_km`. -/
noncomputable def haversine_a (lat1 lon1 lat2 lon2 : ℝ) : ℝ :=
  Real.sin (radiansR (lat2 - lat1) / 2) ^ 2 +
    Real.cos (radiansR lat1) * Real.cos (radiansR lat2) *
      Real.sin (radiansR (lon2 - lon1) / 2) ^ 2

/-- Source `_haversine_km` (R = 6371 km, `c = 2 * atan2(sqrt(a), sqrt(1-a))`). -/
noncomputable def haversine_km (lat1 lon1 lat2 lon2 : ℝ) : ℝ :=
  6371 * (2 * atan2 (Real.sqrt (haversine_a lat1 lon1 lat2 lon2))
      (Real.sqrt (1 - haversine_a lat1 lon1 lat2 lon2)))

/-- Source `_haversine_km` applied to rational (exactly-represented) inputs,
as `api_tracking` does. -/
noncomputable def haversineQ (lat1 lon1 lat2 lon2 : Rat) : ℝ :=
  haversine_km (lat1 : ℝ) (lon1 : ℝ) (lat2 : ℝ) (lon2 : ℝ)

/-- The grouping+building pipeline of `api_tracking` as shipped. -/
noncomputable def apiTrips (ps : List Pt) : List (TripSeg ℝ) × ℝ :=
  apiTripsWith haversineQ apiMaxGapMin ps

/-! ### `_shape_to_list` over a JSON value type

JSON-encoded strings are resolved through an abstract `parse`
function (`json.loads`); the recursion of the source terminates
because each string layer strictly shrinks, which the embedding
tracks with a fuel parameter (real inputs never exhaust it). -/

inductive JVal where
  | jnull
  | jbool (b : Bool)
  | jnum (q : Rat)
  | jstr (s : String)
  | jarr (xs : List JVal)
  | jobj (fields : List (String × JVal))

/-- Python `isinstance(x, dict)` filter used on list shapes. -/
def asObj : JVal → Option (List (String × JVal))
  | .jobj f => some f
  | _ => none

def dictsOf (xs : List JVal) : List (List (String × JVal)) :=
  xs.filterMap asObj

/-- Source `_shape_to_list`: the branch order is exactly the source's —
`None`; dict with a string `body` (re-parse, `[]` on parse failure);
dict with an `items`/`Items` list; dict-of-dicts; bare list; bare
string (re-parse); anything else `[]`. -/
def shapeToList (parse : String → Option JVal) : Nat → JVal → List (List (String × JVal))
  | _, .jnull => []
  | fuel, .jobj fields =>
    (match lookupA fields "body" with
     | some (.jstr s) =>
       (match parse s with
        | some v =>
          (match fuel with
           | 0 => []
           | fuel' + 1 => shapeToList parse fuel' v)
        | none => [])
     | _ =>
       (match lookupA fields "items" with
        | some (.jarr xs) => dictsOf xs
        | _ =>
          (match lookupA fields "Items" with
           | some (.jarr xs) => dictsOf xs
           | _ => dictsOf (fields.map (·.2)))))
  | _, .jarr xs => dictsOf xs
  | fuel, .jstr s =>
    (match parse s with
     | some v =>
       (match fuel with
        | 0 => []
        | fuel' + 1 => shapeToList parse fuel' v)
     | none => [])
  | _, .jbool _ => []
  | _, .jnum _ => []

/-! ### Date parsing and input validation of the tracking endpoints

`strptime` with the formats `%d-%m-%Y` / `%Y-%m-%d`: `%d` and `%m`
match one or two digits within range, `%Y` exactly four digits, and
`datetime` then validates the day against the month length (years
start at 1). Splitting on the literal separator is equivalent to the
format regexes for these patterns. -/

structure CalDate where
  year : Nat
  month : Nat
  day : Nat
  deriving Repr, DecidableEq

def isLeap (y : Nat) : Bool :=
  (y % 4 = 0 && y % 100 ≠ 0) || y % 400 = 0

def daysInMonth (y m : Nat) : Nat :=
  if m = 2 then (if isLeap y then 29 else 28)
  else if m = 4 ∨ m = 6 ∨ m = 9 ∨ m = 11 then 30
  else 31

/-- Directive `%d` / `%m`: one or two digits whose value lies in `[lo, hi]`. -/
def parseNum2 (s : String) (lo hi : Nat) : Option Nat :=
  if s.data.length = 0 ∨ 2 < s.data.length then none
  else
    match pyToNat? s with
    | some v => if lo ≤ v ∧ v ≤ hi then some v else none
    | none => none

/-- Directive `%Y`: exactly four digits. -/
def parseYear4 (s : String) : Option Nat :=
  if s.data.length = 4 then pyToNat? s else none

/-- Python `datetime` range validation (day must exist in the month). -/
def mkValidDate (y m d : Nat) : Option CalDate :=
  if 1 ≤ y ∧ 1 ≤ m ∧ m ≤ 12 ∧ 1 ≤ d ∧ d ≤ daysInMonth y m then
    some ⟨y, m, d⟩
  else none

/-- Python `datetime.strptime(s, "%d-%m-%Y").date()` as an `Option`. -/
def parseDMY (s : String) : Option CalDate :=
  match splitDash s with
  | [ds, ms, ys] =>
    (match parseNum2 ds 1 31, parseNum2 ms 1 12, parseYear4 ys with
     | some d, some m, some y => mkValidDate y m d
     | _, _, _ => none)
  | _ => none

/-- Python `datetime.strptime(s, "%Y-%m-%d").date()` as an `Option`. -/
def parseYMD (s : String) : Option CalDate :=
  match splitDash s with
  | [ys, ms, ds] =>
    (match parseYear4 ys, parseNum2 ms 1 12, parseNum2 ds 1 31 with
     | some y, some m, some d => mkValidDate y m d
     | _, _, _ => none)
  | _ => none

/-- Outcome of the input-validation stage of a tracking endpoint. -/
inductive TrackResp where
  | clientError (msg : String)
  | ok (device_id : String) (d : CalDate)
  deriving Repr, DecidableEq

/-- Source `api_tracking` parameter handling: requires a device id and a date
in `%d-%m-%Y` or (tried second) `%Y-%m-%d`. -/
def api_tracking_validate (device_id date_raw : String) : TrackResp :=
  let dev := pyStrip device_id
  let dr := pyStrip date_raw
  if dev = "" then .clientError "device_id required"
  else if dr = "" then .clientError "date required"
  else
    match parseDMY dr with
    | some d => .ok dev d
    | none =>
      match parseYMD dr with
      | some d => .ok dev d
      | none => .clientError "invalid date format"

/-- Source `api_tracking_download` parameter handling: requires both
parameters, accepts only `%Y-%m-%d`, and additionally requires the
device to exist in the local `Device` table (`devices`). -/
def api_tracking_download_validate (devices : List String)
    (device_id date_str : String) : TrackResp :=
  let dev := pyStrip device_id
  let ds := pyStrip date_str
  if dev = "" ∨ ds = "" then
    .clientError "device_id and date (YYYY-MM-DD) are required"
  else
    match parseYMD ds with
    | none => .clientError "invalid date format (expected YYYY-MM-DD)"
    | some d =>
      if dev ∈ devices then .ok dev d else .clientError "device not found"

/-! ### Concrete inputs used by counterexamples and witnesses -/

/-- A row with every field absent. -/
def emptyRow : Row where
  last_seen := none
  lastSeen := none
  ts_iso := none
  timestamp := none
  ts := none
  lat := none
  last_lat := none
  latitude := none
  lon := none
  last_lon := none
  longitude := none
  gps := none
  device_id := none
  deviceId := none
  node_id := none
  id := none
  label := none
  person := none
  hr := none
  spo2 := none
  temp_c := none
  temp := none
  bp_sys := none
  bp_dia := none
  data := none

/-- A cache entry whose (valid, parseable) timestamp is far older than
the staleness cutoff of the aggregation request it appears in. -/
def staleEntry : CacheEntry where
  device_id := "D1"
  label := "D1"
  lat := some 10
  lon := some 20
  hr := none
  spo2 := none
  temp_c := none
  bp_sys := none
  bp_dia := none
  ts := 1690000000

/-- The aggregation output item produced from `staleEntry`. -/
def staleItemOut : Item where
  device_id := some "D1"
  person_id := some "D1"
  person := some "D1"
  label := some "D1"
  lat := 10
  lon := 20
  hr := none
  spo2 := none
  temp := none
  bp_sys := none
  bp_dia := none
  ts := 1690000000

/-- Registry (earlier-source) row: device `X`, `t = 1690000000`. -/
def tieRowA : Row :=
  { emptyRow with
      last_seen := some (some 1690000000)
      lat := some (some 1)
      lon := some (some 2)
      device_id := some "X"
      label := some "regA" }

/-- GSM (later-source) row: device `X`, the same `t = 1690000000`. -/
def tieRowB : Row :=
  { emptyRow with
      last_seen := some (some 1690000000)
      lat := some (some 3)
      lon := some (some 4)
      device_id := some "X"
      label := some "gsmB" }

/-- A concrete `json.loads` for the normalizer counterexample: the
string `"[]"` parses to the empty array, everything else fails. -/
def cexParse : String → Option JVal :=
  fun s => if s = "[]" then some (JVal.jarr []) else none

/-- An object carrying both a JSON-encoded `body` string and an
`items` list of one record. -/
def bodyAndItemsObj : JVal :=
  JVal.jobj
    [("body", JVal.jstr "[]"),
     ("items", JVal.jarr [JVal.jobj [("a", JVal.jnum 1)]])]

/-- Concrete item for witnesses: device `X` at `t = 100`. -/
def itemA2 : Item where
  device_id := some "X"
  person_id := none
  person := none
  label := some "A"
  lat := 1
  lon := 2
  hr := none
  spo2 := none
  temp := none
  bp_sys := none
  bp_dia := none
  ts := 100

/-- Concrete item for witnesses: device `X` at `t = 200`. -/
def itemB2 : Item := { itemA2 with label := some "B", lat := 3, lon := 4, ts := 200 }

/-- Concrete tracking points for witnesses (5-minute and 30-minute
gaps around a 20-minute threshold). -/
def ptA : Pt := ⟨0, 0, 0⟩

def ptB : Pt := ⟨300, 0, 1⟩

def ptC : Pt := ⟨2100, 0, 2⟩

/-- A registry row whose `last_seen` is 100 seconds older than its
`timestamp`. -/
def olderLastSeenRow : Row :=
  { emptyRow with
      last_seen := some (some 1690000000)
      timestamp := some (some 1690000100)
      lat := some (some 1)
      lon := some (some 2)
      device_id := some "Z" }

/-- The item `merge_rows` produces from `olderLastSeenRow`. -/
def olderLastSeenItem : Item where
  device_id := some "Z"
  person_id := some "Z"
  person := some "Z"
  label := some "Z"
  lat := 1
  lon := 2
  hr := none
  spo2 := none
  temp := none
  bp_sys := none
  bp_dia := none
  ts := 1690000000

/-- Concrete ingest payload for witnesses. -/
def payloadW : IngestPayload where
  device_id := some "D7"
  node_id := none
  id := none
  label := some "Lab"
  person := none
  timestamp := some (some 1690000000)
  lat := some (some 10)
  lon := some (some 20)
  hr := some (some 70)
  spo2 := none
  temp_c := none
  temp := some (some 36)
  bp_sys := none
  bp_dia := none

/-- The gap between consecutive readings is within the threshold
(no boundary). -/
def okGap (maxGap : Rat) (p q : Pt) : Prop := gapMin p q ≤ maxGap

/-- The gap between consecutive readings exceeds the threshold
(boundary). -/
def bigGap (maxGap : Rat) (p q : Pt) : Prop := maxGap < gapMin p q

/-- Run-level boundary relation: the last point of one run and the
first point of the next are separated by more than the threshold. -/
def runBoundary (maxGap : Rat) (r1 r2 : List Pt) : Prop :=
  ∀ x ∈ r1.getLast?, ∀ y ∈ r2.head?, bigGap maxGap x y

/-! ## Shared lemmas -/

theorem sanitize_ts_some (t u : Int) (h : sanitize_ts t = some u) :
    minTs ≤ u ∧ u = t := by
  unfold sanitize_ts at h
  split at h
  · exact absurd h (by simp)
  · rename_i hc
    cases h
    exact ⟨le_of_not_lt hc, rfl⟩

theorem itemFromCache_minTs (e : CacheEntry) (it : Item)
    (h : itemFromCache e = some it) : minTs ≤ it.ts := by
  unfold itemFromCache at h
  split at h
  · exact absurd h (by simp)
  · rename_i tsu hs
    split at h
    · cases h
      exact (sanitize_ts_some _ _ hs).1
    · exact absurd h (by simp)

theorem mergeRow_minTs (r : Row) (it : Item) (h : mergeRow r = some it) :
    minTs ≤ it.ts := by
  simp only [mergeRow] at h
  split at h
  · exact absurd h (by simp)
  · rename_i ts hts
    split at h
    · cases h
      split at hts
      · exact (sanitize_ts_some _ _ hts).1
      · exact absurd hts (by simp)
    · exact absurd h (by simp)

theorem itemsFromCache_minTs (cache : List CacheEntry) (it : Item)
    (h : it ∈ itemsFromCache cache) : minTs ≤ it.ts := by
  unfold itemsFromCache at h
  rw [List.mem_filterMap] at h
  obtain ⟨e, _, he⟩ := h
  exact itemFromCache_minTs e it he

theorem mergeRowsList_minTs (rows : List Row) (it : Item)
    (h : it ∈ mergeRowsList rows) : minTs ≤ it.ts := by
  unfold mergeRowsList at h
  rw [List.mem_filterMap] at h
  obtain ⟨r, _, hr⟩ := h
  exact mergeRow_minTs r it hr

theorem lookupA_updateA_self {α : Type} (l : List (String × α)) (k : String)
    (v : α) : lookupA (updateA l k v) k = some v := by
  induction l with
  | nil => simp [updateA, lookupA]
  | cons hd t ih =>
    obtain ⟨k2, v2⟩ := hd
    unfold updateA
    by_cases hk : k2 = k
    · rw [if_pos hk]
      simp [lookupA]
    · rw [if_neg hk]
      unfold lookupA
      rw [if_neg hk]
      exact ih

theorem lookupA_updateA_ne {α : Type} (l : List (String × α)) (k k' : String)
    (v : α) (h : k' ≠ k) : lookupA (updateA l k v) k' = lookupA l k' := by
  have hk' : ¬ k = k' := fun hh => h hh.symm
  induction l with
  | nil =>
    show lookupA [(k, v)] k' = none
    unfold lookupA
    rw [if_neg hk']
    rfl
  | cons hd t ih =>
    obtain ⟨k2, v2⟩ := hd
    by_cases hk : k2 = k
    · subst hk
      unfold updateA
      rw [if_pos rfl]
      unfold lookupA
      rw [if_neg hk', if_neg hk']
    · unfold updateA
      rw [if_neg hk]
      unfold lookupA
      by_cases hk2 : k2 = k'
      · rw [if_pos hk2, if_pos hk2]
      · rw [if_neg hk2, if_neg hk2]
        exact ih

theorem normItem_ts (it : Item) : (normItem it).ts = it.ts := rfl

theorem mem_updateA {α : Type} (l : List (String × α)) (k : String) (v : α)
    (x : String × α) (h : x ∈ updateA l k v) : x ∈ l ∨ x = (k, v) := by
  induction l with
  | nil =>
    right
    simpa [updateA] using h
  | cons hd t ih =>
    obtain ⟨k2, v2⟩ := hd
    unfold updateA at h
    by_cases hk : k2 = k
    · rw [if_pos hk] at h
      rcases List.mem_cons.mp h with h1 | h1
      · right; exact h1
      · left; exact List.mem_cons_of_mem _ h1
    · rw [if_neg hk] at h
      rcases List.mem_cons.mp h with h1 | h1
      · left
        rw [h1]
        exact List.mem_cons_self _ _
      · rcases ih h1 with h2 | h2
        · left; exact List.mem_cons_of_mem _ h2
        · right; exact h2

theorem foldItem_mem (tbl : List (String × Item)) (it : Item)
    (x : String × Item) (h : x ∈ foldItem tbl it) :
    x ∈ tbl ∨ x.2.ts = it.ts := by
  simp only [foldItem] at h
  split at h
  · exact Or.inl h
  · split at h
    · rcases mem_updateA _ _ _ _ h with h1 | h1
      · exact Or.inl h1
      · right; rw [h1]; exact rfl
    · split at h
      · rcases mem_updateA _ _ _ _ h with h1 | h1
        · exact Or.inl h1
        · right; rw [h1]; exact rfl
      · exact Or.inl h

theorem foldl_foldItem_mem (l : List Item) (tbl : List (String × Item))
    (x : String × Item) (h : x ∈ l.foldl foldItem tbl) :
    x ∈ tbl ∨ ∃ it ∈ l, x.2.ts = it.ts := by
  induction l generalizing tbl with
  | nil => exact Or.inl h
  | cons hd t ih =>
    simp only [List.foldl_cons] at h
    rcases ih (foldItem tbl hd) h with h1 | h1
    · rcases foldItem_mem _ _ _ h1 with h2 | h2
      · exact Or.inl h2
      · exact Or.inr ⟨hd, List.mem_cons_self _ _, h2⟩
    · obtain ⟨it, hit, hts⟩ := h1
      exact Or.inr ⟨it, List.mem_cons_of_mem _ hit, hts⟩

/-! ## Claim C1 -/

/-- Claim C1 is false of the code: with staleness window
`staleness_minutes = 0`, a cache record whose valid timestamp is
10,000,000 seconds older than `now` still appears in the returned
current-state item list (the computed cutoff is never applied). -/
theorem claim1_counterexample :
    staleItemOut ∈ api_current_recent 1700000000 0 [staleEntry] none none none ∧
      staleItemOut.ts < 1700000000 - 0 * 60 := by
  constructor <;> decide

/-- Claim C1 (amended): the aggregation result filters records only by
timestamp validity, not by staleness — every item of the returned list
has a parsed timestamp no older than 2010-01-01, but records older
than `now - staleness_minutes` are not removed. -/
theorem claim1_amended_validity_only (now maxAgeMin : Int)
    (cache : List CacheEntry) (registry lora gsm : Option (List Row))
    (it : Item)
    (h : it ∈ api_current_recent now maxAgeMin cache registry lora gsm) :
    minTs ≤ it.ts := by
  simp only [api_current_recent, foldItems] at h
  rw [List.mem_map] at h
  obtain ⟨x, hx, hxe⟩ := h
  rcases foldl_foldItem_mem _ _ _ hx with h1 | h1
  · exact absurd h1 (List.not_mem_nil x)
  · obtain ⟨src, hsrc, hts⟩ := h1
    have hm : minTs ≤ src.ts := by
      rcases List.mem_append.mp hsrc with h2 | h2
      · rcases List.mem_append.mp h2 with h3 | h3
        · rcases List.mem_append.mp h3 with h4 | h4
          · exact itemsFromCache_minTs _ _ h4
          · cases registry with
            | none => exact absurd h4 (List.not_mem_nil src)
            | some rows =>
              have h4' : src ∈ (if rows.isEmpty then [] else mergeRowsList rows) := h4
              split at h4'
              · exact absurd h4' (List.not_mem_nil src)
              · exact mergeRowsList_minTs _ _ h4'
        · split at h3
          · exact absurd h3 (List.not_mem_nil src)
          · cases lora with
            | none => exact absurd h3 (List.not_mem_nil src)
            | some rows => exact mergeRowsList_minTs _ _ h3
      · cases gsm with
        | none => exact absurd h2 (List.not_mem_nil src)
        | some rows => exact mergeRowsList_minTs _ _ h2
    rw [← hxe, hts]
    exact hm

/-- Witness: the amended C1 theorem applied at a concrete aggregation
request containing `staleEntry`. -/
theorem claim1_amended_validity_only_witness : minTs ≤ staleItemOut.ts :=
  claim1_amended_validity_only 1700000000 0 [staleEntry] none none none
    staleItemOut (by decide)

/-! ## Claim C2 -/

theorem foldItem_lookup_self (tbl : List (String × Item)) (it : Item)
    (h : devKey it ≠ "") :
    ∃ v, lookupA (foldItem tbl it) (devKey it) = some v ∧ it.ts ≤ v.ts := by
  simp only [foldItem]
  rw [if_neg h]
  cases hlk : lookupA tbl (devKey it) with
  | none => exact ⟨normItem it, lookupA_updateA_self _ _ _, le_of_eq rfl⟩
  | some prev =>
    dsimp only
    by_cases hts : prev.ts < it.ts
    · rw [if_pos hts]
      exact ⟨normItem it, lookupA_updateA_self _ _ _, le_of_eq rfl⟩
    · rw [if_neg hts]
      exact ⟨prev, hlk, le_of_not_lt hts⟩

theorem foldItem_lookup_mono (tbl : List (String × Item)) (it : Item)
    (k : String) (v : Item) (h : lookupA tbl k = some v) :
    ∃ v2, lookupA (foldItem tbl it) k = some v2 ∧ v.ts ≤ v2.ts := by
  simp only [foldItem]
  by_cases hd : devKey it = ""
  · rw [if_pos hd]
    exact ⟨v, h, le_refl _⟩
  · rw [if_neg hd]
    cases hlk : lookupA tbl (devKey it) with
    | none =>
      by_cases hk : k = devKey it
      · subst hk
        rw [h] at hlk
        cases hlk
      · rw [lookupA_updateA_ne _ _ _ _ hk]
        exact ⟨v, h, le_refl _⟩
    | some prev =>
      dsimp only
      by_cases hts : prev.ts < it.ts
      · rw [if_pos hts]
        by_cases hk : k = devKey it
        · subst hk
          rw [h] at hlk
          injection hlk with hpv
          subst hpv
          exact ⟨normItem it, lookupA_updateA_self _ _ _, le_of_lt hts⟩
        · rw [lookupA_updateA_ne _ _ _ _ hk]
          exact ⟨v, h, le_refl _⟩
      · rw [if_neg hts]
        exact ⟨v, h, le_refl _⟩

theorem foldl_foldItem_mono (l : List Item) (tbl : List (String × Item))
    (k : String) (v : Item) (h : lookupA tbl k = some v) :
    ∃ v2, lookupA (l.foldl foldItem tbl) k = some v2 ∧ v.ts ≤ v2.ts := by
  induction l generalizing tbl v with
  | nil => exact ⟨v, h, le_refl _⟩
  | cons hd t ih =>
    obtain ⟨v1, h1, hle1⟩ := foldItem_lookup_mono tbl hd k v h
    obtain ⟨v2, h2, hle2⟩ := ih _ _ h1
    refine ⟨v2, ?_, le_trans hle1 hle2⟩
    simpa using h2

/-- Claim C2: for two samples `A`, `B` of the same device folded by the
aggregator, with `A.ts < B.ts` and `B` at the same or a later position,
the final table entry for that device has timestamp at least `B.ts`
(the fold only ever replaces an entry by a strictly newer one). -/
theorem claim2_most_recent_wins (items l1 l2 : List Item) (A B : Item)
    (hsplit : items = l1 ++ B :: l2) (hA : A ∈ l1 ++ [B])
    (hsame : devKey A = devKey B) (hkey : devKey B ≠ "")
    (hlt : A.ts < B.ts) :
    ∃ v, lookupA (foldItems items) (devKey B) = some v ∧ B.ts ≤ v.ts := by
  subst hsplit
  unfold foldItems
  rw [List.foldl_append, List.foldl_cons]
  obtain ⟨v, hv, hle⟩ := foldItem_lookup_self (List.foldl foldItem [] l1) B hkey
  obtain ⟨v2, h2, hle2⟩ := foldl_foldItem_mono l2 _ _ _ hv
  exact ⟨v2, h2, le_trans hle hle2⟩

/-- Witness: C2 applied to the two concrete same-device samples
`itemA2` (t = 100) and `itemB2` (t = 200). -/
theorem claim2_most_recent_wins_witness :
    ∃ v, lookupA (foldItems [itemA2, itemB2]) (devKey itemB2) = some v ∧
      itemB2.ts ≤ v.ts :=
  claim2_most_recent_wins [itemA2, itemB2] [itemA2] [] itemA2 itemB2 rfl
    (by decide) (by decide) (by decide) (by decide)

/-! ## Claim C3 -/

/-- Claim C3 is false of the code: with registry source A (`tieRowA`,
processed first) and GSM source B (`tieRowB`, processed later) both
reporting device `X` at the identical instant, the final entry is A's
record, not B's — the fold replaces only on a strictly greater
timestamp, so ties keep the earlier-processed sample. -/
theorem claim3_counterexample :
    (api_current_recent 1700000000 10 [] (some [tieRowA]) none
        (some [tieRowB])).map (fun it => it.label) = [some "regA"] ∧
      (mergeRowsList [tieRowB]).map (fun it => it.label) = [some "gsmB"] ∧
      (mergeRowsList [tieRowA]).map (fun it => it.ts) =
        (mergeRowsList [tieRowB]).map (fun it => it.ts) ∧
      (some "regA" : Option String) ≠ some "gsmB" := by
  refine ⟨?_, ?_, ?_, ?_⟩ <;> decide

/-- Claim C3 (amended): timestamp ties favor the earlier-processed
sample — a later sample whose timestamp is not strictly greater than
the stored entry's leaves the table unchanged. -/
theorem claim3_amended_tie_keeps_first (tbl : List (String × Item))
    (it prev : Item) (hlk : lookupA tbl (devKey it) = some prev)
    (hle : it.ts ≤ prev.ts) :
    foldItem tbl it = tbl := by
  simp only [foldItem]
  by_cases hd : devKey it = ""
  · rw [if_pos hd]
  · rw [if_neg hd, hlk]
    dsimp only
    rw [if_neg (not_lt.mpr hle)]

/-- Witness: the amended C3 theorem applied to a concrete table already
holding device `X` at the same timestamp as the incoming item. -/
theorem claim3_amended_tie_keeps_first_witness :
    foldItem [("X", itemB2)] { itemB2 with label := some "B2" } =
      [("X", itemB2)] :=
  claim3_amended_tie_keeps_first [("X", itemB2)]
    { itemB2 with label := some "B2" } itemB2 (by decide) (by decide)

/-! ## Claim C4 -/

theorem groupRec_head (maxGap : Rat) (rest : List Pt) :
    ∀ cur lastT, cur ≠ [] →
      ∃ r0 l, groupRec maxGap cur lastT rest = r0 :: l ∧ r0.head? = cur.head? := by
  induction rest with
  | nil =>
    intro cur lastT _
    exact ⟨cur, [], rfl, rfl⟩
  | cons p rest ih =>
    intro cur lastT hne
    unfold groupRec
    by_cases hb : maxGap < ((p.dt - lastT : Int) : Rat) / 60
    · rw [if_pos hb]
      exact ⟨cur, _, rfl, rfl⟩
    · rw [if_neg hb]
      obtain ⟨r0, l, heq, hh⟩ := ih (cur ++ [p]) p.dt (by simp)
      refine ⟨r0, l, heq, ?_⟩
      rw [hh]
      cases cur with
      | nil => exact absurd rfl hne
      | cons a t => simp

theorem groupRec_spec (maxGap : Rat) (rest : List Pt) :
    ∀ cur lastT, cur ≠ [] → List.Chain' (okGap maxGap) cur →
      (∃ z, cur.getLast? = some z ∧ z.dt = lastT) →
      (groupRec maxGap cur lastT rest).flatten = cur ++ rest ∧
        (∀ run ∈ groupRec maxGap cur lastT rest,
          run ≠ [] ∧ List.Chain' (okGap maxGap) run) ∧
        List.Chain' (runBoundary maxGap) (groupRec maxGap cur lastT rest) := by
  induction rest with
  | nil =>
    intro cur lastT hne hchain _
    refine ⟨by simp [groupRec], ?_, by simp [groupRec]⟩
    intro run hrun
    simp only [groupRec, List.mem_singleton] at hrun
    subst hrun
    exact ⟨hne, hchain⟩
  | cons p rest ih =>
    intro cur lastT hne hchain hlast
    unfold groupRec
    by_cases hb : maxGap < ((p.dt - lastT : Int) : Rat) / 60
    · rw [if_pos hb]
      obtain ⟨hjoin, hruns, hbnd⟩ :=
        ih [p] p.dt (by simp) (List.chain'_singleton p) ⟨p, rfl, rfl⟩
      refine ⟨?_, ?_, ?_⟩
      · rw [List.flatten, ← List.flatten]
        show cur ++ (groupRec maxGap [p] p.dt rest).flatten = cur ++ p :: rest
        rw [hjoin]
        simp
      · intro run hrun
        rcases List.mem_cons.mp hrun with h1 | h1
        · subst h1
          exact ⟨hne, hchain⟩
        · exact hruns run h1
      · rw [List.chain'_cons']
        refine ⟨?_, hbnd⟩
        intro r0 hr0
        obtain ⟨r00, l, heq, hh⟩ := groupRec_head maxGap rest [p] p.dt (by simp)
        rw [heq] at hr0
        simp only [List.head?_cons, Option.mem_def, Option.some.injEq] at hr0
        subst hr0
        intro x hx y hy
        obtain ⟨z, hz, hzdt⟩ := hlast
        rw [hz] at hx
        simp only [Option.mem_def, Option.some.injEq] at hx
        subst hx
        rw [hh] at hy
        simp only [List.head?_cons, Option.mem_def, Option.some.injEq] at hy
        subst hy
        unfold bigGap gapMin
        rw [hzdt]
        exact hb
    · rw [if_neg hb]
      have hchain2 : List.Chain' (okGap maxGap) (cur ++ [p]) := by
        apply List.Chain'.append hchain (List.chain'_singleton p)
        intro x hx y hy
        obtain ⟨z, hz, hzdt⟩ := hlast
        rw [hz] at hx
        simp only [Option.mem_def, Option.some.injEq] at hx
        subst hx
        simp only [List.head?_cons, Option.mem_def, Option.some.injEq] at hy
        subst hy
        unfold okGap gapMin
        rw [hzdt]
        exact le_of_not_lt hb
      obtain ⟨hj, hr, hb2⟩ := ih (cur ++ [p]) p.dt (by simp) hchain2
        ⟨p, by simp, rfl⟩
      refine ⟨?_, hr, hb2⟩
      rw [hj]
      simp

/-- Claim C4: the trip segmenter places a boundary between two
consecutive readings exactly when their gap exceeds the threshold: the
produced runs concatenate back to the input in order, every run is
non-empty with all internal consecutive gaps ≤ `maxGap` minutes, and
the gap across every run boundary is > `maxGap` minutes. -/
theorem claim4_segment_boundaries (maxGap : Rat) (ps : List Pt) :
    (groupPoints maxGap ps).flatten = ps ∧
      (∀ run ∈ groupPoints maxGap ps,
        run ≠ [] ∧ List.Chain' (okGap maxGap) run) ∧
      List.Chain' (runBoundary maxGap) (groupPoints maxGap ps) := by
  cases ps with
  | nil =>
    refine ⟨rfl, ?_, ?_⟩ <;> simp [groupPoints]
  | cons p rest =>
    show (groupRec maxGap [p] p.dt rest).flatten = p :: rest ∧ _ ∧ _
    exact groupRec_spec maxGap rest [p] p.dt (by simp)
      (List.chain'_singleton p) ⟨p, rfl, rfl⟩

/-- Witness: C4 applied to three concrete points with a 5-minute and a
30-minute gap around the 20-minute threshold. -/
theorem claim4_segment_boundaries_witness :
    (groupPoints apiMaxGapMin [ptA, ptB, ptC]).flatten = [ptA, ptB, ptC] ∧
      (∀ run ∈ groupPoints apiMaxGapMin [ptA, ptB, ptC],
        run ≠ [] ∧ List.Chain' (okGap apiMaxGapMin) run) ∧
      List.Chain' (runBoundary apiMaxGapMin)
        (groupPoints apiMaxGapMin [ptA, ptB, ptC]) :=
  claim4_segment_boundaries apiMaxGapMin [ptA, ptB, ptC]

/-! ## Claim C5 -/

theorem buildTripsAux_points {K : Type} [LinearOrderedField K] [FloorRing K]
    (d : Rat → Rat → Rat → Rat → K) (runs : List (List Pt)) :
    ∀ (tid : Nat) (total : K) (seg : TripSeg K),
      seg ∈ (buildTripsAux d tid total runs).1 → 2 ≤ seg.points.length := by
  induction runs with
  | nil =>
    intro tid total seg h
    simp [buildTripsAux] at h
  | cons r rest ih =>
    intro tid total seg h
    unfold buildTripsAux at h
    by_cases hl : r.length < 2
    · rw [if_pos hl] at h
      exact ih _ _ _ h
    · rw [if_neg hl] at h
      dsimp only at h
      rcases List.mem_cons.mp h with h1 | h1
      · subst h1
        simpa using not_lt.mp hl
      · exact ih _ _ _ h1

theorem buildTripsAux_skip {K : Type} [LinearOrderedField K] [FloorRing K]
    (d : Rat → Rat → Rat → Rat → K) (p : Pt) (runs2 : List (List Pt)) :
    ∀ (runs1 : List (List Pt)) (tid : Nat) (total : K),
      buildTripsAux d tid total (runs1 ++ [p] :: runs2) =
        buildTripsAux d tid total (runs1 ++ runs2) := by
  intro runs1
  induction runs1 with
  | nil =>
    intro tid total
    rw [List.nil_append, List.nil_append]
    simp only [buildTripsAux]
    rw [if_pos (by simp)]
  | cons seg rest ih =>
    intro tid total
    rw [List.cons_append, List.cons_append]
    simp only [buildTripsAux]
    by_cases hl : seg.length < 2
    · rw [if_pos hl, if_pos hl]
      exact ih tid total
    · rw [if_neg hl, if_neg hl]
      rw [ih]

/-- Claim C5: every trip segment in the tracking output has at least 2
points, and a lone reading (a singleton run, i.e. a reading whose
neighbors are all beyond the gap threshold) yields no segment and
contributes nothing to the reported total distance: deleting it from
the run list leaves the entire payload — trips, ids and total —
unchanged. -/
theorem claim5_min_two_points {K : Type} [LinearOrderedField K] [FloorRing K]
    (d : Rat → Rat → Rat → Rat → K) (maxGap : Rat) (ps : List Pt)
    (runs1 runs2 : List (List Pt)) (p : Pt) :
    (∀ seg ∈ (apiTripsWith d maxGap ps).1, 2 ≤ seg.points.length) ∧
      buildTrips d (runs1 ++ [p] :: runs2) = buildTrips d (runs1 ++ runs2) := by
  constructor
  · intro seg h
    exact buildTripsAux_points d (groupPoints maxGap ps) 1 0 seg h
  · unfold buildTrips
    rw [buildTripsAux_skip]

/-- Witness: C5 applied at a concrete distance function, point list and
run list containing a singleton run. -/
theorem claim5_min_two_points_witness :
    (∀ seg ∈ (apiTripsWith (fun _ _ _ _ => (0 : Rat)) apiMaxGapMin
        [ptA, ptB, ptC]).1, 2 ≤ seg.points.length) ∧
      buildTrips (fun _ _ _ _ => (0 : Rat)) ([[ptA, ptB]] ++ [ptC] :: []) =
        buildTrips (fun _ _ _ _ => (0 : Rat)) ([[ptA, ptB]] ++ []) :=
  claim5_min_two_points (fun _ _ _ _ => (0 : Rat)) apiMaxGapMin
    [ptA, ptB, ptC] [[ptA, ptB]] [] ptC

/-! ## Claim C6 -/

/-- Claim C6: when a registry record carries both an explicit
`last_seen` field and a raw `timestamp`/`ts` field, the normalized
sample's timestamp is the `last_seen` value, even when it is older
than the raw timestamp. -/
theorem claim6_last_seen_priority (r : Row) (t1 t2 : Int) (it : Item)
    (h1 : r.last_seen = some (some t1))
    (h2 : r.timestamp = some (some t2) ∨ r.ts = some (some t2))
    (holder : t1 < t2) (hsane : minTs ≤ t1)
    (hit : mergeRow r = some it) :
    it.ts = t1 := by
  simp only [mergeRow, h1, pickO] at hit
  rw [sanitize_ts, if_neg (not_lt.mpr hsane)] at hit
  dsimp only at hit
  split at hit
  · rename_i la lo _ _
    injection hit with hit
    rw [← hit]
  · exact absurd hit (by simp)

/-- Witness: C6 applied to `olderLastSeenRow`, whose `last_seen` is
older than its `timestamp`. -/
theorem claim6_last_seen_priority_witness : olderLastSeenItem.ts = 1690000000 :=
  claim6_last_seen_priority olderLastSeenRow 1690000000 1690000100
    olderLastSeenItem (by decide) (Or.inl (by decide)) (by decide) (by decide)
    (by decide)

/-! ## Claim C7 -/

/-- Claim C7 is false of the code: for an object carrying both a
JSON-encoded `body` string and an `items` list, the normalizer uses
the body (here parsing to the empty array, so the result is `[]`),
not the items list (which would have yielded one record) — `body` is
checked before `items`. -/
theorem claim7_counterexample :
    shapeToList cexParse 5 bodyAndItemsObj = [] ∧
      dictsOf [JVal.jobj [("a", JVal.jnum 1)]] = [[("a", JVal.jnum 1)]] ∧
      ([] : List (List (String × JVal))) ≠ [[("a", JVal.jnum 1)]] := by
  refine ⟨rfl, rfl, ?_⟩
  intro h
  exact List.noConfusion h

/-- Claim C7 (amended): the interpretation order is body-envelope
first (re-parse recursively), then an `items` list, then bare list,
then bare string (re-parse recursively), then object-of-objects; in
particular, for an object carrying both an items list and a body
string holding parseable JSON, the body is the one used. -/
theorem claim7_amended_body_first (parse : String → Option JVal)
    (fields : List (String × JVal)) (s : String) (v : JVal) (n : Nat)
    (xs : List JVal) :
    (lookupA fields "body" = some (JVal.jstr s) → parse s = some v →
      shapeToList parse (n + 1) (JVal.jobj fields) = shapeToList parse n v) ∧
      (lookupA fields "body" = none →
        lookupA fields "items" = some (JVal.jarr xs) →
        shapeToList parse (n + 1) (JVal.jobj fields) = dictsOf xs) ∧
      (lookupA fields "body" = none → lookupA fields "items" = none →
        lookupA fields "Items" = none →
        shapeToList parse (n + 1) (JVal.jobj fields) =
          dictsOf (fields.map (·.2))) ∧
      shapeToList parse (n + 1) (JVal.jarr xs) = dictsOf xs ∧
      (parse s = some v →
        shapeToList parse (n + 1) (JVal.jstr s) = shapeToList parse n v) := by
  refine ⟨?_, ?_, ?_, rfl, ?_⟩
  · intro hb hp
    simp only [shapeToList, hb, hp]
  · intro hb hits
    simp only [shapeToList, hb, hits]
  · intro hb hits hItems
    simp only [shapeToList, hb, hits, hItems]
  · intro hp
    simp only [shapeToList, hp]

/-- Witness: the amended C7 theorem at a concrete parse function,
field list, string and fuel, with the body-priority hypotheses
discharged. -/
theorem claim7_amended_body_first_witness :
    shapeToList cexParse (0 + 1) (JVal.jobj [("body", JVal.jstr "[]")]) =
      shapeToList cexParse 0 (JVal.jarr []) :=
  (claim7_amended_body_first cexParse [("body", JVal.jstr "[]")] "[]"
    (JVal.jarr []) 0 [JVal.jobj []]).1 rfl rfl

/-! ## Claim C8 -/

theorem parseYear4_len (a : String) (y : Nat) (h : parseYear4 a = some y) :
    a.data.length = 4 := by
  unfold parseYear4 at h
  split at h
  · assumption
  · exact absurd h (by simp)

theorem parseNum2_none_of_len4 (a : String) (lo hi : Nat)
    (h : a.data.length = 4) : parseNum2 a lo hi = none := by
  unfold parseNum2
  rw [if_pos (Or.inr (by rw [h]; norm_num))]

/-- A string accepted by the `%Y-%m-%d` parser is rejected by the
`%d-%m-%Y` parser (its first component has four digits). -/
theorem parseYMD_parseDMY (s : String) (d : CalDate)
    (h : parseYMD s = some d) : parseDMY s = none := by
  unfold parseYMD at h
  unfold parseDMY
  rcases hsp : splitDash s with _ | ⟨a, _ | ⟨b, _ | ⟨c, _ | _⟩⟩⟩ <;>
    rw [hsp] at h
  cases hy : parseYear4 a with
  | none => simp [hy] at h
  | some y =>
    have hn : parseNum2 a 1 31 = none :=
      parseNum2_none_of_len4 a 1 31 (parseYear4_len a y hy)
    simp [hn]

/-- Claim C8 is false of the code: the tracking read endpoint accepts
the date `01-02-2024` (dd-mm-yyyy), while the tracking export endpoint
rejects the very same input with a client error — the export accepts
only yyyy-mm-dd. -/
theorem claim8_counterexample :
    api_tracking_validate "D1" "01-02-2024" =
      TrackResp.ok "D1" ⟨2024, 2, 1⟩ ∧
      api_tracking_download_validate ["D1"] "D1" "01-02-2024" =
        TrackResp.clientError "invalid date format (expected YYYY-MM-DD)" := by
  constructor <;> decide

/-- Claim C8 (amended): the export endpoint accepts strictly fewer
inputs than the tracking read — it accepts only the yyyy-mm-dd format
and additionally requires the device to exist locally — but every
input the export accepts, the tracking read accepts with the same
device id and date. -/
theorem claim8_amended_export_subset (devices : List String)
    (dev date devId : String) (d : CalDate)
    (h : api_tracking_download_validate devices dev date =
      TrackResp.ok devId d) :
    api_tracking_validate dev date = TrackResp.ok devId d := by
  simp only [api_tracking_download_validate] at h
  simp only [api_tracking_validate]
  by_cases hc : pyStrip dev = "" ∨ pyStrip date = ""
  · rw [if_pos hc] at h
    exact absurd h (by simp)
  · rw [if_neg hc] at h
    push_neg at hc
    obtain ⟨hdev, hdate⟩ := hc
    rw [if_neg hdev, if_neg hdate]
    cases hy : parseYMD (pyStrip date) with
    | none =>
      rw [hy] at h
      exact absurd h (by simp)
    | some d2 =>
      rw [hy] at h
      dsimp only at h
      by_cases hm : pyStrip dev ∈ devices
      · rw [if_pos hm] at h
        rw [parseYMD_parseDMY _ _ hy]
        exact h
      · rw [if_neg hm] at h
        exact absurd h (by simp)

/-- Witness: the amended C8 theorem applied at a concrete device list,
device id and yyyy-mm-dd date. -/
theorem claim8_amended_export_subset_witness :
    api_tracking_validate "D1" "2024-02-01" = TrackResp.ok "D1" ⟨2024, 2, 1⟩ :=
  claim8_amended_export_subset ["D1"] "D1" "2024-02-01" "D1" ⟨2024, 2, 1⟩
    (by decide)

/-! ## Claim C9 -/

theorem arctan_nonneg_of_nonneg (x : ℝ) (h : 0 ≤ x) : 0 ≤ Real.arctan x := by
  have h2 := Real.arctan_strictMono.monotone h
  rwa [Real.arctan_zero] at h2

theorem atan2_nonneg (y x : ℝ) (hy : 0 ≤ y) (hx : 0 ≤ x) : 0 ≤ atan2 y x := by
  unfold atan2
  split_ifs with h1 h2 h3 h4 h5 <;>
    first
      | exact arctan_nonneg_of_nonneg _ (div_nonneg hy h1.le)
      | linarith [Real.pi_pos]

theorem haversine_a_self (lat lon : ℝ) : haversine_a lat lon lat lon = 0 := by
  unfold haversine_a radiansR
  simp

theorem haversine_a_symm (lat1 lon1 lat2 lon2 : ℝ) :
    haversine_a lat1 lon1 lat2 lon2 = haversine_a lat2 lon2 lat1 lon1 := by
  have key : ∀ u v : ℝ,
      Real.sin (radiansR (u - v) / 2) ^ 2 =
        Real.sin (radiansR (v - u) / 2) ^ 2 := by
    intro u v
    have huv : radiansR (u - v) = -(radiansR (v - u)) := by
      unfold radiansR
      ring
    rw [huv, neg_div, Real.sin_neg]
    ring
  unfold haversine_a
  rw [key lat2 lat1, key lon2 lon1]
  ring

/-- Claim C9: over the valid latitude/longitude domain the distance
function is non-negative, zero on coincident points, and symmetric in
its two point arguments. -/
theorem claim9_distance_contract (lat1 lon1 lat2 lon2 : ℝ)
    (hlat1 : -90 ≤ lat1 ∧ lat1 ≤ 90) (hlon1 : -180 ≤ lon1 ∧ lon1 ≤ 180)
    (hlat2 : -90 ≤ lat2 ∧ lat2 ≤ 90) (hlon2 : -180 ≤ lon2 ∧ lon2 ≤ 180) :
    0 ≤ haversine_km lat1 lon1 lat2 lon2 ∧
      haversine_km lat1 lon1 lat1 lon1 = 0 ∧
      haversine_km lat1 lon1 lat2 lon2 = haversine_km lat2 lon2 lat1 lon1 := by
  refine ⟨?_, ?_, ?_⟩
  · unfold haversine_km
    have h := atan2_nonneg (Real.sqrt (haversine_a lat1 lon1 lat2 lon2))
      (Real.sqrt (1 - haversine_a lat1 lon1 lat2 lon2))
      (Real.sqrt_nonneg _) (Real.sqrt_nonneg _)
    linarith
  · unfold haversine_km
    rw [haversine_a_self, Real.sqrt_zero, sub_zero, Real.sqrt_one]
    unfold atan2
    rw [if_pos one_pos, zero_div, Real.arctan_zero]
    ring
  · unfold haversine_km
    rw [haversine_a_symm]

/-- Witness: C9 applied at the origin point pair. -/
theorem claim9_distance_contract_witness :
    0 ≤ haversine_km 0 0 0 0 ∧ haversine_km 0 0 0 0 = 0 ∧
      haversine_km 0 0 0 0 = haversine_km 0 0 0 0 :=
  claim9_distance_contract 0 0 0 0 (by norm_num) (by norm_num) (by norm_num)
    (by norm_num)

/-! ## Claim C10 -/

/-- Claim C10: the ingest endpoint mutates the cache only on success —
every error response (unauthorized, invalid JSON, missing device id)
leaves the cache exactly as it was, and a success replaces exactly the
posted device's entry, leaving every other key's lookup unchanged. -/
theorem claim10_ingest_cache_discipline (ingestSecret : String) (now : Int)
    (cache : List (String × CacheEntry)) (reqSecret : String)
    (body : Option IngestPayload) :
    ((ingest_vitals ingestSecret now cache reqSecret body).2 ≠ IngestResp.ok →
      (ingest_vitals ingestSecret now cache reqSecret body).1 = cache) ∧
      (∀ q, body = some q →
        (ingest_vitals ingestSecret now cache reqSecret body).2 =
          IngestResp.ok →
        lookupA (ingest_vitals ingestSecret now cache reqSecret body).1
            (pyStrip (pyOrStrD [q.device_id, q.node_id, q.id] "")) =
          some (mkIngestEntry now q
            (pyStrip (pyOrStrD [q.device_id, q.node_id, q.id] ""))) ∧
          ∀ d2, d2 ≠ pyStrip (pyOrStrD [q.device_id, q.node_id, q.id] "") →
            lookupA (ingest_vitals ingestSecret now cache reqSecret body).1
              d2 = lookupA cache d2) := by
  unfold ingest_vitals
  by_cases hs : reqSecret ≠ ingestSecret
  · rw [if_pos hs]
    exact ⟨fun _ => rfl, fun q _ hok => absurd hok (by simp)⟩
  · rw [if_neg hs]
    cases body with
    | none => exact ⟨fun _ => rfl, fun q hq => by cases hq⟩
    | some p =>
      dsimp only
      by_cases hd : pyStrip (pyOrStrD [p.device_id, p.node_id, p.id] "") = ""
      · rw [if_pos hd]
        exact ⟨fun _ => rfl, fun q _ hok => absurd hok (by simp)⟩
      · rw [if_neg hd]
        refine ⟨fun hne => absurd rfl hne, ?_⟩
        intro q hq _
        injection hq with hq
        subst hq
        exact ⟨lookupA_updateA_self _ _ _,
          fun d2 hne2 => lookupA_updateA_ne _ _ _ _ hne2⟩

/-- Witness: C10 applied at a concrete secret, time, empty cache and
valid payload. -/
theorem claim10_ingest_cache_discipline_witness :
    ((ingest_vitals "sec" 1700000000 [] "sec" (some payloadW)).2 ≠
        IngestResp.ok →
      (ingest_vitals "sec" 1700000000 [] "sec" (some payloadW)).1 = []) ∧
      (∀ q, (some payloadW : Option IngestPayload) = some q →
        (ingest_vitals "sec" 1700000000 [] "sec" (some payloadW)).2 =
          IngestResp.ok →
        lookupA (ingest_vitals "sec" 1700000000 [] "sec" (some payloadW)).1
            (pyStrip (pyOrStrD [q.device_id, q.node_id, q.id] "")) =
          some (mkIngestEntry 1700000000 q
            (pyStrip (pyOrStrD [q.device_id, q.node_id, q.id] ""))) ∧
          ∀ d2, d2 ≠ pyStrip (pyOrStrD [q.device_id, q.node_id, q.id] "") →
            lookupA (ingest_vitals "sec" 1700000000 [] "sec"
              (some payloadW)).1 d2 = lookupA [] d2) :=
  claim10_ingest_cache_discipline "sec" 1700000000 [] "sec" (some payloadW)

end Telemetry
